import Mathlib

/-!
# Shallow embedding of the lib-go-http request engine (`src/Service.go`)

Bodies and payloads are modelled as `List Char`; the external
marshal/unmarshal calls (`encoding/json`, `encoding/xml`,
`utilities.StructToUrl`) on the caller's opaque model values are oracle
functions carried inside `RequestConfig`; the network is an oracle
`Nat → AttemptOutcome` giving the outcome of each `client.Do` call; the
external retry predicate `ig.HttpRetry` is an oracle `Nat → Bool`; the
jitter draw `rand.Float64() * 1000` is an oracle `Nat → Nat` indexed by the
retry counter.
-/

namespace GoHttp

/-- Content mode of a `Service` (Service.go lines 24-30):
`AcceptJson | AcceptXml | AcceptRaw`. -/
inductive Accept where
  | json
  | xml
  | raw
deriving DecidableEq, Repr

instance {ε α : Type} [DecidableEq ε] [DecidableEq α] : DecidableEq (Except ε α) := fun x y =>
  match x, y with
  | .ok a, .ok b =>
    if h : a = b then .isTrue (by rw [h]) else .isFalse (by intro hc; cases hc; exact h rfl)
  | .error a, .error b =>
    if h : a = b then .isTrue (by rw [h]) else .isFalse (by intro hc; cases hc; exact h rfl)
  | .ok _, .error _ => .isFalse (by intro hc; cases hc)
  | .error _, .ok _ => .isFalse (by intro hc; cases hc)

/-- An obtained HTTP response: its status code and the result of reading its
body stream once (`ioutil.ReadAll` in `responseBodyToBytes`, Service.go
lines 283-306, either yields the buffered bytes or a read error message).
`net/http` guarantees a non-nil `Body` on every response a client returns,
so the nil-body guard of `responseBodyToBytes` is not modelled. -/
structure Response where
  statusCode : Nat
  bodyRead : Except String (List Char)
deriving DecidableEq, Repr

/-- The external `errortools.Error` carrier, modelled by the effect of the
setters the engine calls: `SetMessage`, `SetRequest`, `SetBody`,
`SetResponse`, `SetExtra`. -/
structure Error where
  message : Option String
  requestSet : Bool
  bodySet : Option (List Char)
  responseSet : Option Response
  extras : List (String × String)
deriving DecidableEq, Repr

/-- `new(errortools.Error)`: no setter called yet. -/
def Error.empty : Error := ⟨none, false, none, none, []⟩

/-- Outcome of one `client.Do` call: the optional response and the optional
transport error message. -/
structure AttemptOutcome where
  response : Option Response
  err : Option String
deriving DecidableEq, Repr

/-- `RequestConfig` (Service.go lines 71-83).  The opaque `BodyModel`,
`ResponseModel` and `ErrorModel` interface values are represented by
presence flags (`utilities.IsNil`) together with oracle functions for the
external marshal/unmarshal calls applied to them: `jsonEnc`/`xmlEnc` are the
results of `json.Marshal`/`xml.Marshal` on the body model, `formEnc` the
result of `utilities.StructToUrl`, and the `decode…` oracles return
`some errorMessage` exactly when the corresponding `Unmarshal` call into the
caller's sink fails on the given bytes. -/
structure RequestConfig where
  bodyRaw : Option (List Char)
  bodyModelPresent : Bool
  jsonEnc : Except String (List Char)
  xmlEnc : Except String (List Char)
  formEnc : Except String String
  responseModelPresent : Bool
  decodeRespJson : List Char → Option String
  decodeRespXml : List Char → Option String
  errorModelPresent : Bool
  decodeErrorJson : List Char → Option String
  decodeErrorXml : List Char → Option String
  nonDefaultHeaders : Option (List (String × List String))
  xWwwFormUrlEncoded : Option Bool
  maxRetries : Option Nat

/-- `defaultMaxRetries` (Service.go line 22). -/
def defaultMaxRetries : Nat := 5

/-- `_maxRetries` resolution (Service.go lines 371-374): the caller's
override when supplied, `defaultMaxRetries` otherwise. -/
def effMaxRetries : Option Nat → Nat
  | none => defaultMaxRetries
  | some n => n

/-- ASCII lowercasing of one character (`strings.ToLower` restricted to the
ASCII error messages at issue). -/
def lowerChar (c : Char) : Char :=
  if 65 ≤ c.toNat && c.toNat ≤ 90 then Char.ofNat (c.toNat + 32) else c

/-- `strings.ToLower` on a character list. -/
def toLowerL (l : List Char) : List Char := l.map lowerChar

/-- Does `pat` occur at the head of `l`? -/
def startsWithL : List Char → List Char → Bool
  | [], _ => true
  | _ :: _, [] => false
  | p :: ps, c :: cs => p == c && startsWithL ps cs

/-- Does `pat` occur anywhere in `l` (`strings.Contains`)? -/
def containsL (pat : List Char) : List Char → Bool
  | [] => pat.isEmpty
  | c :: cs => startsWithL pat (c :: cs) || containsL pat cs

/-- `strings.Contains(strings.ToLower(err.Error()), "tls handshake timeout")`
guarding the retry at Service.go lines 410-415; `none` stands for a nil
transport error. -/
def tlsRetryable : Option String → Bool
  | none => false
  | some s => containsL "tls handshake timeout".data (toLowerL s.data)

/-- `statusCode` extraction of Service.go lines 399-403: the response's code,
or `0` when no response was obtained. -/
def statusCodeOf : Option Response → Nat
  | some r => r.statusCode
  | none => 0

/-- Total delay in milliseconds slept before the attempt with retry counter
`retry` (Service.go lines 381-383): `math.Pow(2, retry-1)` seconds plus the
jitter milliseconds `int(rand.Float64() * 1000)`. -/
def backoffMs (retry jitterMs : Nat) : Nat := 2 ^ (retry - 1) * 1000 + jitterMs

/-- Result of `doWithRetry`, together with the observable trace of the loop:
which retry counters were sent (`attemptIdx`, in order) and which backoff
sleeps occurred (`sleepsMs`, in milliseconds, in order). -/
structure RunResult where
  response : Option Response
  error : Option Error
  attemptIdx : List Nat
  sleepsMs : List Nat
deriving DecidableEq, Repr

/-- The `for retry <= _maxRetries` loop of `doWithRetry` (Service.go lines
378-434), unrolled structurally on `fuel = _maxRetries + 1 - retry`: the
loop guard `retry <= _maxRetries` is `0 < fuel` (a call with `fuel = 0` is
the loop exiting to the `return nil, nil` at line 437), and the budget test
`retry < _maxRetries` inside an iteration is `0 < fuel - 1`. -/
def doRetryLoopF (httpRetry : Nat → Bool) (att : Nat → AttemptOutcome)
    (jitter : Nat → Nat) (reqBody : Option (List Char)) :
    Nat → Nat → RunResult
  | 0, _ => ⟨none, none, [], []⟩
  | fuel + 1, retry =>
    let pre : List Nat := if 0 < retry then [backoffMs retry (jitter retry)] else []
    let o := att retry
    let statusCode := statusCodeOf o.response
    if httpRetry statusCode && decide (0 < fuel) then
      let r := doRetryLoopF httpRetry att jitter reqBody fuel (retry + 1)
      ⟨r.response, r.error, retry :: r.attemptIdx, pre ++ r.sleepsMs⟩
    else if tlsRetryable o.err then
      let r := doRetryLoopF httpRetry att jitter reqBody fuel (retry + 1)
      ⟨r.response, r.error, retry :: r.attemptIdx, pre ++ r.sleepsMs⟩
    else
      let errFinal : Option String :=
        if o.err.isNone && (statusCode / 100 == 4 || statusCode / 100 == 5) then
          some ("server returned statuscode " ++ toString statusCode)
        else o.err
      match errFinal with
      | some m => ⟨o.response, some ⟨some m, true, reqBody, o.response, []⟩, [retry], pre⟩
      | none => ⟨o.response, none, [retry], pre⟩

/-- `doWithRetry` (Service.go lines 355-438): the nil-client/nil-request
sentinel followed by the retry loop started at `retry = 0`.  The request is
`some body` when non-nil, where `body` is the `RetryableRequest`'s owned
byte buffer (`none` for a request built from a nil reader). -/
def doWithRetry (httpRetry : Nat → Bool) (att : Nat → AttemptOutcome)
    (jitter : Nat → Nat) (clientPresent : Bool)
    (request : Option (Option (List Char))) (maxRetries : Option Nat) : RunResult :=
  match clientPresent, request with
  | true, some body => doRetryLoopF httpRetry att jitter body (effMaxRetries maxRetries + 1) 0
  | _, _ => ⟨none, none, [], []⟩

/-- The form-encoding override inside the request-building closure
(Service.go lines 134-144): when `XWwwFormUrlEncoded` points at `true`, the
body model is flattened with `utilities.StructToUrl` and that string becomes
the body, superseding the bytes prepared so far. -/
def applyFormFlag (cfg : RequestConfig) (body : List Char) : Except String (Option (List Char)) :=
  if cfg.xWwwFormUrlEncoded = some true then
    match cfg.formEnc with
    | .error m => .error m
    | .ok u => .ok (some u.data)
  else .ok (some body)

/-- The request-building closure of `HttpRequest` (Service.go lines
117-157): the bytes of the reader handed to `NewRetryableRequest` (`none`
for a nil reader), or the build error. -/
def buildBodyBytes (accept : Accept) (cfg : RequestConfig) : Except String (Option (List Char)) :=
  match cfg.bodyRaw with
  | some raw => applyFormFlag cfg raw
  | none =>
    if cfg.bodyModelPresent then
      match (if accept = Accept.xml then cfg.xmlEnc else cfg.jsonEnc) with
      | .error m => .error m
      | .ok body => applyFormFlag cfg body
    else .ok none

/-- `RetryableRequest` (Service.go lines 316-320): the owned byte buffer,
the attempt counter, and the readable content currently left in the wrapped
`http.Request`'s body stream. -/
structure RetryableRequest where
  body : Option (List Char)
  runCount : Nat
  stream : List Char
deriving DecidableEq, Repr

/-- `NewRetryableRequest` (Service.go lines 322-340): the caller's reader is
drained once into the owned buffer (`ioutil.ReadAll`), and the request's
stream is a fresh `bytes.NewReader` over that buffer.  The second component
is what remains of the caller's original reader afterwards (`some []`: fully
consumed; `none`: no reader was supplied). -/
def NewRetryableRequest (reader : Option (List Char)) : RetryableRequest × Option (List Char) :=
  match reader with
  | none => (⟨none, 0, []⟩, none)
  | some l => (⟨some l, 0, l⟩, some [])

/-- `RetryableRequest.Do` (Service.go lines 342-351): from the second call
on, the request's body stream is re-armed from the owned buffer before
sending; the transport then drains the stream.  Returns the successor state
and the bytes the transport observed. -/
def RetryableRequest.Do (r : RetryableRequest) : RetryableRequest × List Char :=
  let r1 := if r.runCount > 0 && r.body.isSome then { r with stream := r.body.getD [] } else r
  (⟨r1.body, r1.runCount + 1, []⟩, r1.stream)

/-- The bytes the transport observes on each of `n` consecutive `Do` calls
starting from state `r`. -/
def sentOnAttempts (r : RetryableRequest) : Nat → List (List Char)
  | 0 => []
  | n + 1 =>
    let p := r.Do
    p.2 :: sentOnAttempts p.1 n

/-- `http.Header`, with names taken to be already in canonical MIME form
(`Set`, `Del` and `Add` all canonicalize uniformly, so exact-match keys are
faithful). -/
def HeaderMap := String → List String

def emptyHeader : HeaderMap := fun _ => []

/-- `http.Header.Set`. -/
def headerSet (k v : String) (h : HeaderMap) : HeaderMap :=
  fun q => if q = k then [v] else h q

/-- `http.Header.Del`. -/
def headerDel (k : String) (h : HeaderMap) : HeaderMap :=
  fun q => if q = k then [] else h q

/-- `http.Header.Add`. -/
def headerAdd (k v : String) (h : HeaderMap) : HeaderMap :=
  fun q => if q = k then h q ++ [v] else h q

/-- Default headers of a built request (Service.go lines 166-172): in JSON
mode, `Accept: application/json`, plus `Content-Type: application/json` when
a body model is present. -/
def defaultHeaders (accept : Accept) (cfg : RequestConfig) : HeaderMap :=
  if accept = Accept.json then
    let h := headerSet "Accept" "application/json" emptyHeader
    if cfg.bodyModelPresent then headerSet "Content-Type" "application/json" h else h
  else emptyHeader

/-- One entry of the caller's header overlay (Service.go lines 179-187):
delete every existing value of the name, then add the caller's values in
order. -/
def overlayEntry (h : HeaderMap) (kv : String × List String) : HeaderMap :=
  kv.2.foldl (fun h v => headerAdd kv.1 v h) (headerDel kv.1 h)

/-- The caller's header overlay (Service.go lines 174-191). -/
def applyOverlay (h : HeaderMap) (ov : List (String × List String)) : HeaderMap :=
  ov.foldl overlayEntry h

/-- Headers of the built request after defaults and the caller's overlay. -/
def finalHeaders (accept : Accept) (cfg : RequestConfig) : HeaderMap :=
  match cfg.nonDefaultHeaders with
  | none => defaultHeaders accept cfg
  | some ov => applyOverlay (defaultHeaders accept cfg) ov

/-- The status-code synthesis of `HttpRequest` (Service.go lines 223-228):
when `doWithRetry` returned no error but the status code is outside 200-299,
a fresh error with message `"Server returned statuscode {S}"` is created;
an error from `doWithRetry` is kept as is. -/
def synthStatusError (e : Option Error) (statusCode : Nat) : Option Error :=
  match e with
  | some e0 => some e0
  | none =>
    if statusCode < 200 || 299 < statusCode then
      some ⟨some ("Server returned statuscode " ++ toString statusCode), false, none, none, []⟩
    else none

/-- The terminal-error path of `HttpRequest` (Service.go lines 230-252):
attach request, body and response to the error; if an error-model sink was
supplied and the body could be read, try to decode it, and on decode failure
attach the raw body text under the extra key `response_message`. -/
def errorPath (accept : Accept) (cfg : RequestConfig) (bb : Option (List Char))
    (resp : Response) (e0 : Error) : Error :=
  let e1 : Error := { e0 with requestSet := true, bodySet := bb, responseSet := some resp }
  if cfg.errorModelPresent then
    match resp.bodyRead with
    | .error _ => e1
    | .ok b =>
      match (if accept = Accept.xml then cfg.decodeErrorXml b else cfg.decodeErrorJson b) with
      | some _ => { e1 with extras := e1.extras ++ [("response_message", String.mk b)] }
      | none => e1
  else e1

/-- The success path of `HttpRequest` (Service.go lines 254-277): if a
response-model sink was supplied, read the body (a read failure is returned
as the call's error carrying only its message, line 258) and decode it; a
decode failure replaces the success outcome with an error carrying request,
body, response and the decode message. -/
def successPath (accept : Accept) (cfg : RequestConfig) (bb : Option (List Char))
    (resp : Response) : Option Error :=
  if cfg.responseModelPresent then
    match resp.bodyRead with
    | .error msg => some ⟨some msg, false, none, none, []⟩
    | .ok b =>
      match (if accept = Accept.xml then cfg.decodeRespXml b else cfg.decodeRespJson b) with
      | some msg => some ⟨some msg, true, bb, some resp, []⟩
      | none => none
  else none

/-- `Service.HttpRequest` (Service.go lines 101-281), returning the response
and error the caller observes.  The engine always passes a non-nil client
and request to `doWithRetry` (line 206). -/
def HttpRequest (accept : Accept) (cfg : RequestConfig) (httpRetry : Nat → Bool)
    (att : Nat → AttemptOutcome) (jitter : Nat → Nat) : Option Response × Option Error :=
  match buildBodyBytes accept cfg with
  | .error msg => (none, some ⟨some msg, false, none, none, []⟩)
  | .ok bb =>
    let run := doWithRetry httpRetry att jitter true (some bb) cfg.maxRetries
    match run.response with
    | none => (none, run.error)
    | some resp =>
      match synthStatusError run.error resp.statusCode with
      | some e0 => (some resp, some (errorPath accept cfg bb resp e0))
      | none => (some resp, successPath accept cfg bb resp)

/-- The terminal classification of `doWithRetry` for an attempt with nil
transport error (Service.go lines 417-433), as a function of the request
body and the optional response: a 4xx/5xx status yields the synthesized
lowercase `"server returned statuscode {S}"` error with request, body and
response attached; any other status yields no error. -/
def mkTermError (bb : Option (List Char)) (r : Option Response) : Option Error :=
  if statusCodeOf r / 100 == 4 || statusCodeOf r / 100 == 5 then
    some ⟨some ("server returned statuscode " ++ toString (statusCodeOf r)), true, bb, r, []⟩
  else none

/-- The status message `HttpRequest` ends up attaching for a response with
nil transport error and status `s` outside 200-299: lowercase from
`doWithRetry` for 4xx/5xx, capitalized from `HttpRequest` otherwise. -/
def synthMsg (s : Nat) : String :=
  if s / 100 == 4 || s / 100 == 5 then
    "server returned statuscode " ++ toString s
  else
    "Server returned statuscode " ++ toString s

/-! ## Concrete instances used to evaluate the model -/

/-- The built-in rule of the external retry predicate `ig.HttpRetry`
(spec §4.3 / §6: retry on 500 and 503). -/
def httpRetry500or503 (s : Nat) : Bool := s == 500 || s == 503

/-- Zero jitter draw on every retry. -/
def jitter0 : Nat → Nat := fun _ => 0

/-- Constant 123 ms jitter draw on every retry. -/
def jitter123 : Nat → Nat := fun _ => 123

/-- Every attempt fails in transport with Go's TLS handshake timeout
message and yields no response. -/
def attTls : Nat → AttemptOutcome := fun _ => ⟨none, some "net/http: TLS handshake timeout"⟩

def resp404 : Response := ⟨404, .ok "oops".data⟩

def resp301 : Response := ⟨301, .ok []⟩

def resp200 : Response := ⟨200, .ok "nope".data⟩

/-- Every attempt yields a 404 response with body `oops`. -/
def att404 : Nat → AttemptOutcome := fun _ => ⟨some resp404, none⟩

/-- Every attempt yields a 301 response with empty body. -/
def att301 : Nat → AttemptOutcome := fun _ => ⟨some resp301, none⟩

/-- Every attempt yields a 200 response whose body is not valid JSON. -/
def att200bad : Nat → AttemptOutcome := fun _ => ⟨some resp200, none⟩

/-- Every attempt yields a 503 response. -/
def att503 : Nat → AttemptOutcome := fun _ => ⟨some ⟨503, .ok []⟩, none⟩

/-- A minimal call: no body, no sinks, no headers, `maxRetries = 0`. -/
def baseCfg : RequestConfig := {
  bodyRaw := none, bodyModelPresent := false,
  jsonEnc := .ok [], xmlEnc := .ok [], formEnc := .ok "",
  responseModelPresent := false,
  decodeRespJson := fun _ => none, decodeRespXml := fun _ => none,
  errorModelPresent := false,
  decodeErrorJson := fun _ => none, decodeErrorXml := fun _ => none,
  nonDefaultHeaders := none, xWwwFormUrlEncoded := none, maxRetries := some 0 }

/-- Raw bytes `xyz` together with a body model whose form encoding is `a=1`
and the form flag set: the configuration on which raw-byte precedence
fails. -/
def cfgC2cex : RequestConfig := { baseCfg with
  bodyRaw := some "xyz".data, bodyModelPresent := true,
  formEnc := .ok "a=1", xWwwFormUrlEncoded := some true }

/-- Same call but with the form flag absent. -/
def cfgC2ok : RequestConfig := { baseCfg with
  bodyRaw := some "xyz".data, bodyModelPresent := true, formEnc := .ok "a=1" }

/-- A call with a response-model sink whose JSON decode always fails. -/
def cfgC6 : RequestConfig := { baseCfg with
  responseModelPresent := true, decodeRespJson := fun _ => some "invalid json" }

/-- A call with an error-model sink whose JSON decode always fails. -/
def cfgC7 : RequestConfig := { baseCfg with
  errorModelPresent := true, decodeErrorJson := fun _ => some "invalid json" }

/-- The terminal error `doWithRetry` produces for the `att404` run of
`cfgC7`. -/
def e0C7 : Error := ⟨some "server returned statuscode 404", true, none, some resp404, []⟩

/-- A header overlay that overrides the default `Accept`, removes
`X-Token`, and adds a default-less `X-New`. -/
def ovC8 : List (String × List String) :=
  [("Accept", ["text/html"]), ("X-Token", []), ("X-New", ["a", "b"])]

/-- A call with a body model and the `ovC8` overlay. -/
def cfgC8 : RequestConfig := { baseCfg with
  bodyModelPresent := true, nonDefaultHeaders := some ovC8 }

/-! ## Helper lemmas -/

/-- Each loop iteration consumes one unit of fuel, so the number of send
attempts is bounded by the fuel. -/
theorem doRetryLoopF_attempts_length_le (httpRetry : Nat → Bool)
    (att : Nat → AttemptOutcome) (jitter : Nat → Nat) (bb : Option (List Char)) :
    ∀ fuel retry, (doRetryLoopF httpRetry att jitter bb fuel retry).attemptIdx.length ≤ fuel := by
  intro fuel
  induction fuel with
  | zero => intro retry; simp [doRetryLoopF]
  | succ n ih =>
    intro retry
    simp only [doRetryLoopF]
    split
    · simpa using Nat.succ_le_succ (ih (retry + 1))
    · split
      · simpa using Nat.succ_le_succ (ih (retry + 1))
      · split <;> simp

/-- The sleeps recorded by the loop are exactly one backoff delay per sent
attempt with positive retry counter. -/
theorem doRetryLoopF_sleeps_eq (httpRetry : Nat → Bool)
    (att : Nat → AttemptOutcome) (jitter : Nat → Nat) (bb : Option (List Char)) :
    ∀ fuel retry,
      (doRetryLoopF httpRetry att jitter bb fuel retry).sleepsMs =
        ((doRetryLoopF httpRetry att jitter bb fuel retry).attemptIdx.filter
          (fun k => decide (0 < k))).map (fun k => backoffMs k (jitter k)) := by
  intro fuel
  induction fuel with
  | zero => intro retry; simp [doRetryLoopF]
  | succ n ih =>
    intro retry
    simp only [doRetryLoopF]
    split
    · by_cases hr : 0 < retry <;> simp [hr, ih (retry + 1)]
    · split
      · by_cases hr : 0 < retry <;> simp [hr, ih (retry + 1)]
      · split <;> (by_cases hr : 0 < retry <;> simp [hr])

/-- When every attempt has a nil transport error, the loop (entered with
fuel left) terminates at some attempt `k` and returns that attempt's
response together with its terminal classification `mkTermError`. -/
theorem doRetryLoopF_err_none (httpRetry : Nat → Bool) (att : Nat → AttemptOutcome)
    (jitter : Nat → Nat) (bb : Option (List Char))
    (herr : ∀ i, (att i).err = none) :
    ∀ fuel retry, 0 < fuel →
      ∃ k, (doRetryLoopF httpRetry att jitter bb fuel retry).response = (att k).response ∧
        (doRetryLoopF httpRetry att jitter bb fuel retry).error
          = mkTermError bb ((att k).response) := by
  intro fuel
  induction fuel with
  | zero => intro retry h; exact absurd h (Nat.lt_irrefl 0)
  | succ n ih =>
    intro retry _
    have htls : tlsRetryable (att retry).err = false := by rw [herr retry]; rfl
    simp only [doRetryLoopF]
    by_cases hc : (httpRetry (statusCodeOf (att retry).response) && decide (0 < n)) = true
    · have hn : 0 < n := of_decide_eq_true ((Bool.and_eq_true _ _).mp hc).2
      obtain ⟨k, h1, h2⟩ := ih (retry + 1) hn
      exact ⟨k, by simp [hc, h1], by simp [hc, h2]⟩
    · refine ⟨retry, ?_, ?_⟩ <;>
      · by_cases hs : (statusCodeOf (att retry).response / 100 == 4
            || statusCodeOf (att retry).response / 100 == 5) = true <;>
          simp [hc, htls, herr retry, hs, mkTermError, tlsRetryable]

/-- The error-model decode attempt of the failure path never changes the
error's message. -/
theorem errorPath_message (accept : Accept) (cfg : RequestConfig) (bb : Option (List Char))
    (resp : Response) (e0 : Error) :
    (errorPath accept cfg bb resp e0).message = e0.message := by
  simp only [errorPath]
  split
  · split
    · rfl
    · split <;> rfl
  · rfl

/-- When every attempt has a nil transport error and a response came back
with a status outside 200-299, `HttpRequest` returns an error whose message
is the synthesized status message: the lowercase one from `doWithRetry` for
4xx/5xx, the capitalized one from `HttpRequest` otherwise. -/
theorem httpRequest_err_none_non2xx (accept : Accept) (cfg : RequestConfig)
    (httpRetry : Nat → Bool) (att : Nat → AttemptOutcome) (jitter : Nat → Nat)
    (bb : Option (List Char)) (resp : Response)
    (hbuild : buildBodyBytes accept cfg = .ok bb)
    (herr : ∀ i, (att i).err = none)
    (hresp : (HttpRequest accept cfg httpRetry att jitter).1 = some resp)
    (hout : resp.statusCode < 200 ∨ 299 < resp.statusCode) :
    (HttpRequest accept cfg httpRetry att jitter).2.map Error.message
      = some (some (synthMsg resp.statusCode)) := by
  obtain ⟨k, hk1, hk2⟩ := doRetryLoopF_err_none httpRetry att jitter bb herr
    (effMaxRetries cfg.maxRetries + 1) 0 (Nat.succ_pos _)
  simp only [HttpRequest, hbuild, doWithRetry] at hresp ⊢
  cases hro : (doRetryLoopF httpRetry att jitter bb (effMaxRetries cfg.maxRetries + 1) 0).response with
  | none => rw [hro] at hresp; simp at hresp
  | some r =>
    rw [hro] at hk1
    have hkr : (att k).response = some r := hk1.symm
    rw [hkr] at hk2
    simp only [hro, hk2] at hresp ⊢
    have hr : r = resp := by
      cases hsE : synthStatusError (mkTermError bb (some r)) r.statusCode with
      | none => simpa [hsE] using hresp
      | some e0 => simpa [hsE] using hresp
    subst hr
    by_cases hs : (r.statusCode / 100 == 4 || r.statusCode / 100 == 5) = true
    · simp [mkTermError, statusCodeOf, hs, synthStatusError, errorPath_message, synthMsg]
    · have hcond : (decide (r.statusCode < 200) || decide (299 < r.statusCode)) = true := by
        rcases hout with h | h <;> simp [h]
      simp [mkTermError, statusCodeOf, hs, synthStatusError, hcond, errorPath_message, synthMsg]

/-- Folding `headerAdd` over a value list appends those values at the key
and leaves other keys unchanged. -/
theorem headerAdd_foldl (k : String) :
    ∀ (vs : List String) (h : HeaderMap) (q : String),
      (vs.foldl (fun h v => headerAdd k v h) h) q = if q = k then h q ++ vs else h q := by
  intro vs
  induction vs with
  | nil => intro h q; by_cases hq : q = k <;> simp [hq]
  | cons v rest ih =>
    intro h q
    simp only [List.foldl_cons]
    rw [ih (headerAdd k v h) q]
    by_cases hq : q = k <;> simp [headerAdd, hq]

/-- One overlay entry: the named header now holds exactly the caller's
values, every other header is untouched. -/
theorem overlayEntry_at (h : HeaderMap) (k : String) (vs : List String) (q : String) :
    overlayEntry h (k, vs) q = if q = k then vs else h q := by
  by_cases hq : q = k <;> simp [overlayEntry, headerAdd_foldl, headerDel, hq]

/-- Keys not named in the overlay are untouched by it. -/
theorem applyOverlay_not_mem (k : String) :
    ∀ (ov : List (String × List String)) (h : HeaderMap),
      k ∉ ov.map Prod.fst → applyOverlay h ov k = h k := by
  intro ov
  induction ov with
  | nil => intro h _; rfl
  | cons kv rest ih =>
    intro h hk
    simp only [List.map_cons, List.mem_cons, not_or] at hk
    have h1 : overlayEntry h kv k = h k := by
      have h2 : overlayEntry h (kv.1, kv.2) k = h k := by
        rw [overlayEntry_at, if_neg hk.1]
      simpa using h2
    have h3 : applyOverlay (overlayEntry h kv) rest k = (overlayEntry h kv) k :=
      ih (overlayEntry h kv) hk.2
    show applyOverlay (overlayEntry h kv) rest k = h k
    rw [h3, h1]

/-- A key named once in the overlay ends up holding exactly that entry's
values. -/
theorem applyOverlay_mem (k : String) (vs : List String) :
    ∀ (ov : List (String × List String)) (h : HeaderMap),
      (ov.map Prod.fst).Nodup → (k, vs) ∈ ov → applyOverlay h ov k = vs := by
  intro ov
  induction ov with
  | nil => intro h _ hmem; simp at hmem
  | cons kv rest ih =>
    intro h hnd hmem
    simp only [List.map_cons, List.nodup_cons] at hnd
    rcases List.mem_cons.mp hmem with heq | hmem2
    · cases heq
      have hout : k ∉ List.map Prod.fst rest := hnd.1
      show applyOverlay (overlayEntry h (k, vs)) rest k = vs
      rw [applyOverlay_not_mem k rest _ hout, overlayEntry_at, if_pos rfl]
    · show applyOverlay (overlayEntry h kv) rest k = vs
      exact ih _ hnd.2 hmem2

/-- Replay invariant: from any state owning buffer `bs` whose stream before
the first send is `bs`, every one of the next `n` sends puts exactly `bs`
on the wire. -/
theorem sentOnAttempts_replicate (bs : List Char) :
    ∀ (n : Nat) (r : RetryableRequest), r.body = some bs →
      (r.runCount = 0 → r.stream = bs) → sentOnAttempts r n = List.replicate n bs := by
  intro n
  induction n with
  | zero => intro r _ _; rfl
  | succ m ih =>
    rintro ⟨b0, rc, st⟩ hb hs
    simp only at hb hs
    subst hb
    cases rc with
    | zero =>
      have hstream : st = bs := hs rfl
      have hnext := ih ⟨some bs, 1, []⟩ rfl (by intro h; simp at h)
      simpa [sentOnAttempts, RetryableRequest.Do, List.replicate, hstream] using hnext
    | succ p =>
      have hnext := ih ⟨some bs, p + 1 + 1, []⟩ rfl (by intro h; simp at h)
      simpa [sentOnAttempts, RetryableRequest.Do, List.replicate] using hnext

/-! ## Claims -/

/-- C1: counter-evidence for the claim that after the retry budget is
exhausted on all-retryable attempts `doWithRetry` returns the last attempt's
outcome and never returns with neither a response nor an error.  With
`maxRetries = 0` and a single attempt failing with a TLS-handshake-timeout
transport error, exactly one send attempt happens (`attemptIdx = [0]`) and
`doWithRetry` returns neither a response nor an error: the TLS retry branch
(Service.go line 412) increments the counter past the budget without the
`retry < _maxRetries` guard, so the loop falls through to the
`return nil, nil` at line 437 — the line whose own comment says
"should never reach this" — dropping the attempt's non-nil error. -/
theorem c1_tls_exhaustion_drops_last_outcome :
    doWithRetry httpRetry500or503 attTls jitter0 true (some none) (some 0)
      = ⟨none, none, [0], []⟩ ∧ (attTls 0).err ≠ none :=
  ⟨by decide, by decide⟩

/-- C2 (counterexample): raw pre-encoded bytes `xyz` are supplied, but
because the form-encoding flag is also set, the body handed to the
transport is the form encoding `a=1` of the body model, not the raw
bytes — the claim "raw bytes take precedence, even when the form-encoding
flag is present" is false on the code. -/
theorem c2_counterexample :
    cfgC2cex.bodyRaw = some "xyz".data
    ∧ cfgC2cex.xWwwFormUrlEncoded = some true
    ∧ buildBodyBytes Accept.json cfgC2cex = .ok (some "a=1".data)
    ∧ buildBodyBytes Accept.json cfgC2cex ≠ .ok (some "xyz".data) :=
  ⟨by decide, by decide, by decide, by decide⟩

/-- C2 (amended): when raw pre-encoded bytes are supplied and the
form-encoding flag is not set to true, the request body is exactly those
bytes with no encoding applied — even when a body model is also present —
and every send attempt transmits exactly those bytes. -/
theorem c2_raw_bytes_verbatim_without_form_flag (accept : Accept) (cfg : RequestConfig)
    (raw : List Char) (n : Nat)
    (hraw : cfg.bodyRaw = some raw)
    (hform : cfg.xWwwFormUrlEncoded ≠ some true) :
    buildBodyBytes accept cfg = .ok (some raw)
    ∧ sentOnAttempts (NewRetryableRequest (some raw)).1 n = List.replicate n raw := by
  constructor
  · simp [buildBodyBytes, hraw, applyFormFlag, hform]
  · exact sentOnAttempts_replicate raw n _ rfl (fun _ => rfl)

/-- Witness for C2 (amended) at a concrete input: raw bytes `xyz` with a
body model present but no form flag are used verbatim on both attempts. -/
theorem c2_witness :
    buildBodyBytes Accept.json cfgC2ok = .ok (some "xyz".data)
    ∧ sentOnAttempts (NewRetryableRequest (some "xyz".data)).1 2
      = List.replicate 2 "xyz".data :=
  c2_raw_bytes_verbatim_without_form_flag Accept.json cfgC2ok "xyz".data 2
    (by decide) (by decide)

/-- C3: for every classification of the attempts, `doWithRetry` with a
non-nil client and request performs at most `1 + maxRetries` send attempts
(and terminates, the model being a total function), where `maxRetries` is
the caller's override when supplied and `defaultMaxRetries = 5`
otherwise. -/
theorem c3_retry_budget (httpRetry : Nat → Bool) (att : Nat → AttemptOutcome)
    (jitter : Nat → Nat) (body : Option (List Char)) (mr : Option Nat) (n : Nat) :
    (doWithRetry httpRetry att jitter true (some body) mr).attemptIdx.length
      ≤ 1 + effMaxRetries mr
    ∧ effMaxRetries none = 5
    ∧ effMaxRetries (some n) = n := by
  refine ⟨?_, rfl, rfl⟩
  have h := doRetryLoopF_attempts_length_le httpRetry att jitter body
    (effMaxRetries mr + 1) 0
  simpa [doWithRetry, Nat.add_comm] using h

/-- C4: replay fidelity — for a request built from a (single-use) reader
holding `bs`, the bytes the transport observes on each of the `n` attempts
are exactly `bs` (so attempt `n ≥ 2` is byte-for-byte equal to attempt 1),
each attempt's stream being rebuilt from the buffered copy owned by the
`RetryableRequest`; the original reader is fully consumed once at build
time (second conjunct) and never consulted again. -/
theorem c4_replay_fidelity (bs : List Char) (n : Nat) :
    sentOnAttempts (NewRetryableRequest (some bs)).1 n = List.replicate n bs
    ∧ (NewRetryableRequest (some bs)).2 = some [] :=
  ⟨sentOnAttempts_replicate bs n _ rfl (fun _ => rfl), rfl⟩

/-- C5 (counterexample): a 404 response with nil transport error produces
the lowercase message `server returned statuscode 404` synthesized in
`doWithRetry` (Service.go line 418), not the claimed
`Server returned statuscode 404`. -/
theorem c5_counterexample :
    (HttpRequest Accept.json baseCfg httpRetry500or503 att404 jitter0).2.map Error.message
      = some (some "server returned statuscode 404")
    ∧ (HttpRequest Accept.json baseCfg httpRetry500or503 att404 jitter0).2.map Error.message
      ≠ some (some "Server returned statuscode 404") :=
  ⟨by decide, by decide⟩

/-- C5 (amended): for every completed call whose attempts all have nil
transport errors and whose returned response has a status outside 200-299,
the returned error carries the synthesized message
`server returned statuscode {S}` (lowercase, from `doWithRetry`) when `S`
is 4xx/5xx, and `Server returned statuscode {S}` (capitalized, from
`HttpRequest`) for any other non-2xx status. -/
theorem c5_terminal_status_message (accept : Accept) (cfg : RequestConfig)
    (httpRetry : Nat → Bool) (att : Nat → AttemptOutcome) (jitter : Nat → Nat)
    (bb : Option (List Char)) (resp : Response)
    (hbuild : buildBodyBytes accept cfg = .ok bb)
    (herr : ∀ i, (att i).err = none)
    (hresp : (HttpRequest accept cfg httpRetry att jitter).1 = some resp)
    (hout : resp.statusCode < 200 ∨ 299 < resp.statusCode) :
    (HttpRequest accept cfg httpRetry att jitter).2.map Error.message
      = some (some (if resp.statusCode / 100 == 4 || resp.statusCode / 100 == 5 then
          "server returned statuscode " ++ toString resp.statusCode
        else
          "Server returned statuscode " ++ toString resp.statusCode)) := by
  simpa [synthMsg] using
    httpRequest_err_none_non2xx accept cfg httpRetry att jitter bb resp hbuild herr hresp hout

/-- Witness for C5 (amended) at a concrete input: a 301 status yields the
capitalized message. -/
theorem c5_witness :
    (HttpRequest Accept.json baseCfg httpRetry500or503 att301 jitter0).2.map Error.message
      = some (some (if resp301.statusCode / 100 == 4 || resp301.statusCode / 100 == 5 then
          "server returned statuscode " ++ toString resp301.statusCode
        else
          "Server returned statuscode " ++ toString resp301.statusCode)) :=
  c5_terminal_status_message Accept.json baseCfg httpRetry500or503 att301 jitter0 none resp301
    (by decide) (fun _ => rfl) (by decide) (by decide)

/-- C6: on the success path (no terminal error, status 200-299) with a
response-model sink, a decode failure replaces the success outcome: the
call returns a non-nil error carrying the decode message, the request, the
request body and the response. -/
theorem c6_success_decode_failure_is_error (accept : Accept) (cfg : RequestConfig)
    (httpRetry : Nat → Bool) (att : Nat → AttemptOutcome) (jitter : Nat → Nat)
    (bb : Option (List Char)) (resp : Response) (b : List Char) (msg : String)
    (hbuild : buildBodyBytes accept cfg = .ok bb)
    (hresp : (doWithRetry httpRetry att jitter true (some bb) cfg.maxRetries).response
      = some resp)
    (herr : (doWithRetry httpRetry att jitter true (some bb) cfg.maxRetries).error = none)
    (h2xx : 200 ≤ resp.statusCode ∧ resp.statusCode ≤ 299)
    (hrm : cfg.responseModelPresent = true)
    (hb : resp.bodyRead = .ok b)
    (hdec : (if accept = Accept.xml then cfg.decodeRespXml b else cfg.decodeRespJson b)
      = some msg) :
    HttpRequest accept cfg httpRetry att jitter
      = (some resp, some ⟨some msg, true, bb, some resp, []⟩) := by
  have hcond : (decide (resp.statusCode < 200) || decide (299 < resp.statusCode)) = false := by
    simp only [Bool.or_eq_false_iff, decide_eq_false_iff_not, Nat.not_lt]
    exact ⟨h2xx.1, h2xx.2⟩
  simp [HttpRequest, hbuild, hresp, herr, synthStatusError, hcond, successPath, hrm, hb, hdec]

/-- Witness for C6 at a concrete input: a 200 response whose body fails to
decode yields the decode error, not a success. -/
theorem c6_witness :
    HttpRequest Accept.json cfgC6 httpRetry500or503 att200bad jitter0
      = (some resp200, some ⟨some "invalid json", true, none, some resp200, []⟩) :=
  c6_success_decode_failure_is_error Accept.json cfgC6 httpRetry500or503 att200bad jitter0
    none resp200 "nope".data "invalid json" (by decide) (by decide) (by decide) (by decide)
    (by decide) (by decide) (by decide)

/-- C7: on the terminal-error path with an error-model sink, a decode
failure does not replace or suppress the original error: the call still
returns it (same message, and the response is still the returned one), with
the raw body text attached as extra context under `response_message`. -/
theorem c7_error_decode_failure_nonfatal (accept : Accept) (cfg : RequestConfig)
    (httpRetry : Nat → Bool) (att : Nat → AttemptOutcome) (jitter : Nat → Nat)
    (bb : Option (List Char)) (resp : Response) (e0 : Error) (b : List Char) (m : String)
    (hbuild : buildBodyBytes accept cfg = .ok bb)
    (hresp : (doWithRetry httpRetry att jitter true (some bb) cfg.maxRetries).response
      = some resp)
    (hsE : synthStatusError
        (doWithRetry httpRetry att jitter true (some bb) cfg.maxRetries).error
        resp.statusCode = some e0)
    (hem : cfg.errorModelPresent = true)
    (hb : resp.bodyRead = .ok b)
    (hdec : (if accept = Accept.xml then cfg.decodeErrorXml b else cfg.decodeErrorJson b)
      = some m) :
    (HttpRequest accept cfg httpRetry att jitter).1 = some resp
    ∧ (HttpRequest accept cfg httpRetry att jitter).2.map Error.message = some e0.message
    ∧ (HttpRequest accept cfg httpRetry att jitter).2.map Error.extras
      = some (e0.extras ++ [("response_message", String.mk b)]) := by
  simp [HttpRequest, hbuild, hresp, hsE, errorPath, hem, hb, hdec]

/-- Witness for C7 at a concrete input: a 404 with an undecodable error
body still returns the original status error, with the body text attached
under `response_message`. -/
theorem c7_witness :
    (HttpRequest Accept.json cfgC7 httpRetry500or503 att404 jitter0).1 = some resp404
    ∧ (HttpRequest Accept.json cfgC7 httpRetry500or503 att404 jitter0).2.map Error.message
      = some e0C7.message
    ∧ (HttpRequest Accept.json cfgC7 httpRetry500or503 att404 jitter0).2.map Error.extras
      = some (e0C7.extras ++ [("response_message", String.mk "oops".data)]) :=
  c7_error_decode_failure_nonfatal Accept.json cfgC7 httpRetry500or503 att404 jitter0
    none resp404 e0C7 "oops".data "invalid json" (by decide) (by decide) (by decide)
    (by decide) (by decide) (by decide)

/-- C8: in JSON mode the defaults are applied before the caller's overlay,
and the overlay deletes-then-adds each named header: a name listed in the
overlay ends up holding exactly the caller's values in order (so a
same-named caller header replaces all default values and an empty value
list removes the header), while a name not listed keeps its default
values. -/
theorem c8_header_overlay (cfg : RequestConfig) (ov : List (String × List String))
    (k : String) (vs : List String)
    (hov : cfg.nonDefaultHeaders = some ov)
    (hnd : (ov.map Prod.fst).Nodup) :
    ((k, vs) ∈ ov → finalHeaders Accept.json cfg k = vs)
    ∧ (k ∉ ov.map Prod.fst →
        finalHeaders Accept.json cfg k = defaultHeaders Accept.json cfg k) := by
  constructor
  · intro hmem
    simp only [finalHeaders, hov]
    exact applyOverlay_mem k vs ov _ hnd hmem
  · intro hnotin
    simp only [finalHeaders, hov]
    exact applyOverlay_not_mem k ov _ hnotin

/-- Witness for C8 at a concrete overlay: `Accept` is replaced (not
appended), `X-Token` is removed by an empty value list, the default-less
`X-New` is added verbatim, and the untouched default `Content-Type`
survives. -/
theorem c8_witness :
    finalHeaders Accept.json cfgC8 "Accept" = ["text/html"]
    ∧ finalHeaders Accept.json cfgC8 "X-Token" = []
    ∧ finalHeaders Accept.json cfgC8 "X-New" = ["a", "b"]
    ∧ finalHeaders Accept.json cfgC8 "Content-Type"
      = defaultHeaders Accept.json cfgC8 "Content-Type" :=
  ⟨(c8_header_overlay cfgC8 ovC8 "Accept" ["text/html"] rfl (by decide)).1 (by decide),
   (c8_header_overlay cfgC8 ovC8 "X-Token" [] rfl (by decide)).1 (by decide),
   (c8_header_overlay cfgC8 ovC8 "X-New" ["a", "b"] rfl (by decide)).1 (by decide),
   (c8_header_overlay cfgC8 ovC8 "Content-Type" [] rfl (by decide)).2 (by decide)⟩

/-- C9: the sleeps of a run are exactly one backoff delay per attempt with
positive retry index `k`, namely `backoffMs k (jitter k)`; for retry index
`i ≥ 1` that delay is `2^(i-1)` seconds plus the jitter milliseconds, the
jitter contribution is below one second (given the jitter draw lies in
`[0, 1000)` as `int(rand.Float64()*1000)` does), and the base delay is
strictly increasing in `i`. -/
theorem c9_backoff (httpRetry : Nat → Bool) (att : Nat → AttemptOutcome)
    (jitter : Nat → Nat) (body : Option (List Char)) (mr : Option Nat)
    (hj : ∀ i, jitter i < 1000) (i : Nat) (hi : 1 ≤ i) :
    (doWithRetry httpRetry att jitter true (some body) mr).sleepsMs
      = ((doWithRetry httpRetry att jitter true (some body) mr).attemptIdx.filter
          (fun k => decide (0 < k))).map (fun k => backoffMs k (jitter k))
    ∧ backoffMs i (jitter i) = 2 ^ (i - 1) * 1000 + jitter i
    ∧ backoffMs i (jitter i) < 2 ^ (i - 1) * 1000 + 1000
    ∧ backoffMs i 0 < backoffMs (i + 1) 0 := by
  refine ⟨?_, rfl, ?_, ?_⟩
  · exact doRetryLoopF_sleeps_eq httpRetry att jitter body (effMaxRetries mr + 1) 0
  · exact Nat.add_lt_add_left (hj i) _
  · show 2 ^ (i - 1) * 1000 + 0 < 2 ^ (i + 1 - 1) * 1000 + 0
    simp only [Nat.add_zero, Nat.add_sub_cancel]
    have hpow : 2 ^ (i - 1) < 2 ^ i := Nat.pow_lt_pow_right (by omega) (by omega)
    exact mul_lt_mul_of_pos_right hpow (by omega)

/-- Witness for C9 at a concrete run: two 503 retries with 123 ms jitter. -/
theorem c9_witness :
    (doWithRetry httpRetry500or503 att503 jitter123 true (some none) (some 2)).sleepsMs
      = ((doWithRetry httpRetry500or503 att503 jitter123 true (some none)
          (some 2)).attemptIdx.filter
          (fun k => decide (0 < k))).map (fun k => backoffMs k (jitter123 k))
    ∧ backoffMs 2 (jitter123 2) = 2 ^ (2 - 1) * 1000 + jitter123 2
    ∧ backoffMs 2 (jitter123 2) < 2 ^ (2 - 1) * 1000 + 1000
    ∧ backoffMs 2 0 < backoffMs (2 + 1) 0 :=
  c9_backoff httpRetry500or503 att503 jitter123 none (some 2)
    (by intro i; unfold jitter123; decide) 2 (by decide)

/-- C10: for every call whose attempts all have nil transport errors and
which obtained a response, either the status is in 200-299, or the returned
error is non-nil with the synthesized status message (`synthMsg`); in
particular a nil returned error forces a 2xx status, and the unclassified
1xx/3xx codes also produce the synthesized terminal error. -/
theorem c10_non_success_statuses_error (accept : Accept) (cfg : RequestConfig)
    (httpRetry : Nat → Bool) (att : Nat → AttemptOutcome) (jitter : Nat → Nat)
    (bb : Option (List Char)) (resp : Response)
    (hbuild : buildBodyBytes accept cfg = .ok bb)
    (herr : ∀ i, (att i).err = none)
    (hresp : (HttpRequest accept cfg httpRetry att jitter).1 = some resp) :
    (200 ≤ resp.statusCode ∧ resp.statusCode ≤ 299)
    ∨ (HttpRequest accept cfg httpRetry att jitter).2.map Error.message
        = some (some (synthMsg resp.statusCode)) := by
  by_cases h2 : 200 ≤ resp.statusCode ∧ resp.statusCode ≤ 299
  · exact Or.inl h2
  · refine Or.inr (httpRequest_err_none_non2xx accept cfg httpRetry att jitter bb resp
      hbuild herr hresp ?_)
    omega

/-- Witness for C10 at a concrete input: a 404 run yields the synthesized
message. -/
theorem c10_witness :
    (200 ≤ resp404.statusCode ∧ resp404.statusCode ≤ 299)
    ∨ (HttpRequest Accept.json cfgC6 httpRetry500or503 att404 jitter0).2.map Error.message
        = some (some (synthMsg resp404.statusCode)) :=
  c10_non_success_statuses_error Accept.json cfgC6 httpRetry500or503 att404 jitter0
    none resp404 (by decide) (fun _ => rfl) (by decide)

end GoHttp
